/-
Verification of the denormalization (ETL) pipeline of the catalog-API
repository: a shallow embedding, in Lean 4, of the four pipeline variants
(src/src/etl/etl_genres.py, src/src/etl/etl_persons.py,
src/src/services/etl_genres.py, src/src/services/etl_persons.py), of the
tenacity retry wrapper configured on their remote-store operations, and of
the two HTTP invocation endpoints (src/src/api/v1/etl_genres.py,
src/src/etl/etl_persons_endpoint.py).

The remote document store (Elasticsearch) is modelled as an optional index
holding a field mapping and an association list of documents keyed by the
document id; a bulk index request with an id that is already present
overwrites the stored document, exactly as the store does.  Python sets are
modelled as duplicate-free lists in insertion order (a deterministic
refinement of the set's arbitrary iteration order).  Exceptions are modelled
by an explicit error type and Except.
-/
import Mathlib

set_option linter.unusedVariables false
set_option autoImplicit false

/-! ## Exceptions and the tenacity retry wrapper

The decorators in the source are all
  retry(stop=stop_after_attempt(5),
        wait=wait_exponential(multiplier=1, min=2, max=10),
        retry=retry_if_exception_type((ConnectionError, RequestError)),
        reraise=True).
ExcTy lists the exception classes the pipeline distinguishes.  In the
elasticsearch client, a malformed request body, an index-creation conflict
(resource_already_exists_exception) and an invalid mapping all raise
RequestError (HTTP 400); ConnectionError covers connection failures and
timeouts; keyError stands for the Python KeyError / TypeError raised by
unchecked subscripting. -/

inductive ExcTy
  | connectionError
  | requestError
  | notFoundError
  | keyError
  deriving DecidableEq, Repr

/-- The retry predicate of the decorators:
retry_if_exception_type((ConnectionError, RequestError)). -/
def isRetryable (e : ExcTy) : Bool :=
  match e with
  | ExcTy.connectionError => true
  | ExcTy.requestError => true
  | ExcTy.notFoundError => false
  | ExcTy.keyError => false

/-- tenacity wait_exponential: the sleep before the retry that follows
failed attempt number k is max(max(0, min), min(multiplier * 2 ^ k, max)). -/
def waitExponential (multiplier minW maxW k : Nat) : Nat :=
  Nat.max (Nat.max 0 minW) (Nat.min (multiplier * 2 ^ k) maxW)

/-- The backoff schedule configured in the source:
wait_exponential(multiplier=1, min=2, max=10). -/
def etlBackoff (k : Nat) : Nat :=
  waitExponential 1 2 10 k

/-- One tenacity retry loop.  op n is the outcome of the n-th call of the
wrapped operation; a is the current (1-based) attempt number and fuel the
number of attempts still allowed, this one included.  After a failed
attempt the loop retries exactly when the exception matches the retry
predicate and at least one further attempt is allowed; otherwise the
original exception is re-raised.  Returns the final outcome together with
the number of the attempt that produced it. -/
def tenacityGo {α : Type} (op : Nat → Except ExcTy α) : Nat → Nat → Except ExcTy α × Nat
  | a, 0 => (op a, a)
  | a, fuel + 1 =>
    match op a with
    | Except.ok v => (Except.ok v, a)
    | Except.error e =>
      if isRetryable e = true ∧ 0 < fuel then tenacityGo op (a + 1) fuel
      else (Except.error e, a)

/-- The wrapper as configured in the source: stop_after_attempt(5),
reraise=True. -/
def tenacityRun {α : Type} (op : Nat → Except ExcTy α) : Except ExcTy α × Nat :=
  tenacityGo op 1 5

theorem tenacityGo_zero {α : Type} (op : Nat → Except ExcTy α) (a : Nat) :
    tenacityGo op a 0 = (op a, a) :=
  rfl

theorem tenacityGo_succ_ok {α : Type} {op : Nat → Except ExcTy α} {a n : Nat} {v : α}
    (h : op a = Except.ok v) : tenacityGo op a (n + 1) = (Except.ok v, a) := by
  simp [tenacityGo, h]

theorem tenacityGo_succ_retry {α : Type} {op : Nat → Except ExcTy α} {a n : Nat} {e : ExcTy}
    (h : op a = Except.error e) (hr : isRetryable e = true) (hn : 0 < n) :
    tenacityGo op a (n + 1) = tenacityGo op (a + 1) n := by
  simp [tenacityGo, h, hr, hn]

theorem tenacityGo_succ_stop {α : Type} {op : Nat → Except ExcTy α} {a n : Nat} {e : ExcTy}
    (h : op a = Except.error e) (hc : ¬(isRetryable e = true ∧ 0 < n)) :
    tenacityGo op a (n + 1) = (Except.error e, a) := by
  simp only [tenacityGo, h]
  rw [if_neg hc]

theorem tenacityGo_fst {α : Type} (op : Nat → Except ExcTy α) :
    ∀ fuel a, (tenacityGo op a fuel).1 = op (tenacityGo op a fuel).2 := by
  intro fuel
  induction fuel with
  | zero => intro a; rw [tenacityGo_zero]
  | succ n ih =>
    intro a
    cases hop : op a with
    | ok v => rw [tenacityGo_succ_ok hop]; exact hop.symm
    | error e =>
      by_cases hcond : isRetryable e = true ∧ 0 < n
      · rw [tenacityGo_succ_retry hop hcond.1 hcond.2]
        exact ih (a + 1)
      · rw [tenacityGo_succ_stop hop hcond]
        exact hop.symm

theorem tenacityGo_attempt_ge {α : Type} (op : Nat → Except ExcTy α) :
    ∀ fuel a, a ≤ (tenacityGo op a fuel).2 := by
  intro fuel
  induction fuel with
  | zero => intro a; rw [tenacityGo_zero]
  | succ n ih =>
    intro a
    cases hop : op a with
    | ok v => rw [tenacityGo_succ_ok hop]
    | error e =>
      by_cases hcond : isRetryable e = true ∧ 0 < n
      · rw [tenacityGo_succ_retry hop hcond.1 hcond.2]
        exact Nat.le_trans (Nat.le_succ a) (ih (a + 1))
      · rw [tenacityGo_succ_stop hop hcond]

theorem tenacityGo_attempt_le {α : Type} (op : Nat → Except ExcTy α) :
    ∀ fuel a, (tenacityGo op a (fuel + 1)).2 ≤ a + fuel := by
  intro fuel
  induction fuel with
  | zero =>
    intro a
    cases hop : op a with
    | ok v => rw [tenacityGo_succ_ok hop]; omega
    | error e =>
      rw [tenacityGo_succ_stop hop (by simp)]
      omega
  | succ n ih =>
    intro a
    cases hop : op a with
    | ok v => rw [tenacityGo_succ_ok hop]; omega
    | error e =>
      by_cases hcond : isRetryable e = true ∧ 0 < n + 1
      · rw [tenacityGo_succ_retry hop hcond.1 hcond.2]
        have := ih (a + 1)
        omega
      · rw [tenacityGo_succ_stop hop hcond]
        omega

theorem tenacityGo_prior_attempts {α : Type} (op : Nat → Except ExcTy α) :
    ∀ fuel a k, a ≤ k → k < (tenacityGo op a fuel).2 →
      ∃ e, op k = Except.error e ∧ isRetryable e = true := by
  intro fuel
  induction fuel with
  | zero =>
    intro a k hak hk
    rw [tenacityGo_zero] at hk
    omega
  | succ n ih =>
    intro a k hak hk
    cases hop : op a with
    | ok v => rw [tenacityGo_succ_ok hop] at hk; omega
    | error e =>
      by_cases hcond : isRetryable e = true ∧ 0 < n
      · rw [tenacityGo_succ_retry hop hcond.1 hcond.2] at hk
        rcases Nat.eq_or_lt_of_le hak with heq | hlt
        · exact ⟨e, heq ▸ hop, hcond.1⟩
        · exact ih (a + 1) k hlt hk
      · rw [tenacityGo_succ_stop hop hcond] at hk
        omega

/-! ## JSON-ish embedded references and Python sets

An element of an embedded array (a genre entry, an actor entry, ...) is
either a JSON object, modelled as an association list of string fields, or
some non-object value.  RefVal.get models both the membership test
("id" in genre) and the subscript access (genre["id"]) on well-formed
objects. -/

inductive RefVal
  | dict (fields : List (String × String))
  | nondict
  deriving DecidableEq, Repr

def RefVal.get (v : RefVal) (k : String) : Option String :=
  match v with
  | RefVal.dict fields => fields.lookup k
  | RefVal.nondict => none

/-- Python set.add on a set modelled as a duplicate-free list in insertion
order. -/
def insertSet {α : Type} [DecidableEq α] (s : List α) (a : α) : List α :=
  if a ∈ s then s else s ++ [a]

theorem mem_insertSet {α : Type} [DecidableEq α] (s : List α) (a x : α) :
    x ∈ insertSet s a ↔ x ∈ s ∨ x = a := by
  unfold insertSet
  by_cases h : a ∈ s
  · simp only [if_pos h]
    constructor
    · exact fun hx => Or.inl hx
    · rintro (hx | rfl)
      · exact hx
      · exact h
  · simp [if_neg h]

theorem nodup_insertSet {α : Type} [DecidableEq α] (s : List α) (a : α)
    (h : s.Nodup) : (insertSet s a).Nodup := by
  unfold insertSet
  by_cases ha : a ∈ s
  · simpa [if_pos ha]
  · rw [if_neg ha]
    simpa [List.nodup_append] using ⟨h, ha⟩

/-- Membership after folding a step function that either inserts one element
into the accumulated set or leaves it unchanged. -/
theorem mem_foldl_of_step {β γ : Type} (g : List γ → β → List γ) (P : β → γ → Prop)
    (hg : ∀ acc b x, x ∈ g acc b ↔ x ∈ acc ∨ P b x) (l : List β) :
    ∀ acc x, x ∈ l.foldl g acc ↔ x ∈ acc ∨ ∃ b ∈ l, P b x := by
  induction l with
  | nil => intro acc x; simp
  | cons b bs ih =>
    intro acc x
    rw [List.foldl_cons, ih (g acc b) x, hg acc b x]
    constructor
    · rintro ((hx | hP) | ⟨b', hb', hP'⟩)
      · exact Or.inl hx
      · exact Or.inr ⟨b, List.mem_cons_self b bs, hP⟩
      · exact Or.inr ⟨b', List.mem_cons_of_mem b hb', hP'⟩
    · rintro (hx | ⟨b', hb', hP'⟩)
      · exact Or.inl (Or.inl hx)
      · rcases List.mem_cons.mp hb' with rfl | hb'
        · exact Or.inl (Or.inr hP')
        · exact Or.inr ⟨b', hb', hP'⟩

/-- Folding a step function that preserves duplicate-freedom preserves it. -/
theorem nodup_foldl_of_step {β γ : Type} (g : List γ → β → List γ)
    (hg : ∀ acc b, acc.Nodup → (g acc b).Nodup) (l : List β) :
    ∀ acc, acc.Nodup → (l.foldl g acc).Nodup := by
  induction l with
  | nil => intro acc h; simpa
  | cons b bs ih =>
    intro acc h
    rw [List.foldl_cons]
    exact ih (g acc b) (hg acc b h)

theorem mem_foldl_insertSet {α : Type} [DecidableEq α] (l acc : List α) (x : α) :
    x ∈ l.foldl insertSet acc ↔ x ∈ acc ∨ x ∈ l := by
  rw [mem_foldl_of_step insertSet (fun b y => y = b)
    (fun acc b y => mem_insertSet acc b y) l acc x]
  constructor
  · rintro (hx | ⟨b, hb, rfl⟩)
    · exact Or.inl hx
    · exact Or.inr hb
  · rintro (hx | hx)
    · exact Or.inl hx
    · exact Or.inr ⟨x, hx, rfl⟩

theorem nodup_foldl_insertSet {α : Type} [DecidableEq α] (l acc : List α)
    (h : acc.Nodup) : (l.foldl insertSet acc).Nodup :=
  nodup_foldl_of_step insertSet (fun acc b hacc => nodup_insertSet acc b hacc) l acc h

/-! ## Field names, roles and schema constants used by the pipeline -/

def keyId : String := "id"
def keyName : String := "name"
def keyUuid : String := "uuid"
def keyFullName : String := "full_name"
def keyRole : String := "role"
def keyFilms : String := "films"
def roleActor : String := "actor"
def roleWriter : String := "writer"
def roleDirector : String := "director"
def tyKeyword : String := "keyword"
def tyText : String := "text"

/-- Mapping of the genres index (both genre variants use the same body). -/
def genresMapping : List (String × String) :=
  [(keyId, tyKeyword), (keyName, tyText)]

/-- Mapping of the persons index in src/src/etl/etl_persons.py
(role is a keyword field there). -/
def personsMapping : List (String × String) :=
  [(keyId, tyKeyword), (keyName, tyText), (keyRole, tyKeyword), (keyFilms, tyKeyword)]

/-- Mapping of the persons index in src/src/services/etl_persons.py
(role is an analyzed text field there). -/
def personsMappingSvc : List (String × String) :=
  [(keyId, tyKeyword), (keyName, tyText), (keyRole, tyText), (keyFilms, tyKeyword)]

/-! ## The document store

One target index per pipeline: a field mapping plus documents keyed by the
Elasticsearch document id.  A bulk index action whose id is already present
replaces the stored document (upsert), preserving its position; a fresh id
is appended. -/

structure ESIndex (δ : Type) where
  mapping : List (String × String)
  docs : List (String × δ)
  deriving DecidableEq, Repr

structure Store (δ : Type) where
  index? : Option (ESIndex δ)
  deriving DecidableEq, Repr

/-- indices.exists. -/
def indexExists {δ : Type} (s : Store δ) : Bool :=
  s.index?.isSome

/-- indices.delete (call sites always guard on existence). -/
def deleteIndex {δ : Type} (s : Store δ) : Store δ :=
  { index? := none }

/-- indices.create: fails with a RequestError (resource_already_exists)
when the index is already present. -/
def createIndex {δ : Type} (m : List (String × String)) (s : Store δ) :
    Except ExcTy (Store δ) :=
  match s.index? with
  | some _ => Except.error ExcTy.requestError
  | none => Except.ok { index? := some { mapping := m, docs := [] } }

/-- One bulk index action: store document d under id i, overwriting any
document already stored under i. -/
def upsertDoc {δ : Type} : List (String × δ) → String → δ → List (String × δ)
  | [], i, d => [(i, d)]
  | p :: ps, i, d => if p.1 = i then (i, d) :: ps else p :: upsertDoc ps i d

/-- helpers.async_bulk: apply the actions in order. -/
def bulkApply {δ : Type} (acts : List (String × δ)) (docs : List (String × δ)) :
    List (String × δ) :=
  acts.foldl (fun ds a => upsertDoc ds a.1 a.2) docs

/-- A bulk write against the store; a bulk to a missing index auto-creates
it with a dynamic (empty) mapping, as the store does by default. -/
def bulkWriteStore {δ : Type} (acts : List (String × δ)) (s : Store δ) : Store δ :=
  match s.index? with
  | some idx => { index? := some { mapping := idx.mapping, docs := bulkApply acts idx.docs } }
  | none => { index? := some { mapping := [], docs := bulkApply acts [] } }

/-- The document ids stored in the target index. -/
def targetIds {δ : Type} (s : Store δ) : List String :=
  match s.index? with
  | some idx => idx.docs.map Prod.fst
  | none => []

theorem map_fst_upsertDoc {δ : Type} :
    ∀ (ds : List (String × δ)) (i : String) (d : δ),
      (upsertDoc ds i d).map Prod.fst = insertSet (ds.map Prod.fst) i := by
  intro ds
  induction ds with
  | nil => intro i d; simp [upsertDoc, insertSet]
  | cons p ps ih =>
    intro i d
    by_cases h : p.1 = i
    · simp only [upsertDoc, if_pos h, List.map_cons]
      unfold insertSet
      rw [if_pos (by simp [h])]
      simp [h]
    · simp only [upsertDoc, if_neg h, List.map_cons, ih]
      unfold insertSet
      by_cases hi : i ∈ ps.map Prod.fst
      · rw [if_pos hi, if_pos (List.mem_cons_of_mem _ hi)]
      · have hip : i ∉ p.1 :: ps.map Prod.fst := by
          intro hmem
          rcases List.mem_cons.mp hmem with he | hmem2
          · exact h he.symm
          · exact hi hmem2
        rw [if_neg hi, if_neg hip, List.cons_append]

theorem map_fst_bulkApply {δ : Type} :
    ∀ (acts ds : List (String × δ)),
      (bulkApply acts ds).map Prod.fst =
        (acts.map Prod.fst).foldl insertSet (ds.map Prod.fst) := by
  intro acts
  induction acts with
  | nil => intro ds; simp [bulkApply]
  | cons a as ih =>
    intro ds
    simp only [bulkApply, List.foldl_cons, List.map_cons]
    rw [show as.foldl (fun ds a => upsertDoc ds a.1 a.2) (upsertDoc ds a.1 a.2) =
      bulkApply as (upsertDoc ds a.1 a.2) from rfl, ih, map_fst_upsertDoc]

/-! ## Target documents

The _source bodies written by the two loaders. -/

/-- A genre document: \x7b"id": ..., "name": ...\x7d. -/
structure GenreDoc where
  id : String
  name : String
  deriving DecidableEq, Repr

/-- A person document: \x7b"id": ..., "name": ..., "role": ...,
"films": [...]\x7d. -/
structure PersonDoc where
  id : String
  name : String
  role : String
  films : List String
  deriving DecidableEq, Repr

/-! ## Pipeline events

Trace of the remote-store calls a run performs, in the order it performs
them.  extractDone marks the moment the extraction coroutine has returned
its full entity set (scanning is consumed inside it, so scanning completes
before extraction concludes). -/

inductive Ev
  | extractDone
  | adminExists
  | adminDelete
  | adminCreate
  | bulkLoad
  deriving DecidableEq, Repr

def isAdminEv (ev : Ev) : Bool :=
  match ev with
  | Ev.adminExists => true
  | Ev.adminDelete => true
  | Ev.adminCreate => true
  | Ev.extractDone => false
  | Ev.bulkLoad => false

/-! ## src/src/etl/etl_genres.py — ETLService -/

namespace EtlGenres

/-- A film document as the genres extractor sees it: only the embedded
genre array matters (a missing field reads as the empty array via
doc["_source"].get("genre", [])). -/
structure GenreFilmDoc where
  genre : List RefVal
  deriving DecidableEq, Repr

/-- The guard and projection applied to one array element:
isinstance(genre, dict) and "id" in genre and "name" in genre,
then (genre["id"], genre["name"]). -/
def genrePair (g : RefVal) : Option (String × String) :=
  match RefVal.get g keyId, RefVal.get g keyName with
  | some i, some n => some (i, n)
  | _, _ => none

/-- The loop body: a well-formed element is added to the set, a malformed
one is logged and skipped. -/
def addGenre (acc : List (String × String)) (g : RefVal) : List (String × String) :=
  match genrePair g with
  | some p => insertSet acc p
  | none => acc

/-- ETLService.extract_genres_from_films: scan every film document and fold
all well-formed genre references into one set of (id, name) pairs. -/
def extractGenresFromFilms (films : List GenreFilmDoc) : List (String × String) :=
  films.foldl (fun acc f => f.genre.foldl addGenre acc) []

/-- ETLService.recreate_genres_index: exists-check, delete when present,
create fresh with the genres mapping; paired with the admin calls issued. -/
def recreateGenresIndex (s : Store GenreDoc) : Except ExcTy (Store GenreDoc) × List Ev :=
  if indexExists s then
    (createIndex genresMapping (deleteIndex s), [Ev.adminExists, Ev.adminDelete, Ev.adminCreate])
  else
    (createIndex genresMapping s, [Ev.adminExists, Ev.adminCreate])

/-- ETLService.load_genres_to_index: one bulk action per set element, with
the genre id as the document id. -/
def loadGenresToIndex (genres : List (String × String)) (s : Store GenreDoc) :
    Store GenreDoc :=
  bulkWriteStore (genres.map fun g => (g.1, GenreDoc.mk g.1 g.2)) s

/-- ETLService.run_etl: extract, recreate, load; any stage failure is
re-raised.  The scan argument is the outcome of the wrapped scan of the
films index: either its documents or the exception that escaped the
retry wrapper.  Returns run outcome, final store state and the call trace. -/
def runEtl (scan : Except ExcTy (List GenreFilmDoc)) (s : Store GenreDoc) :
    Except ExcTy Unit × Store GenreDoc × List Ev :=
  match scan with
  | Except.error e => (Except.error e, s, [])
  | Except.ok films =>
    let genres := extractGenresFromFilms films
    match recreateGenresIndex s with
    | (Except.error e, evs) => (Except.error e, s, Ev.extractDone :: evs)
    | (Except.ok s1, evs) =>
      (Except.ok (), loadGenresToIndex genres s1, Ev.extractDone :: evs ++ [Ev.bulkLoad])

end EtlGenres

namespace EtlGenres

theorem mem_addGenre (acc : List (String × String)) (g : RefVal) (x : String × String) :
    x ∈ addGenre acc g ↔ x ∈ acc ∨ genrePair g = some x := by
  unfold addGenre
  cases h : genrePair g with
  | none => simp
  | some p =>
    rw [mem_insertSet]
    constructor
    · rintro (hx | rfl)
      · exact Or.inl hx
      · exact Or.inr rfl
    · rintro (hx | hp)
      · exact Or.inl hx
      · exact Or.inr (Option.some_injective _ hp).symm

theorem nodup_addGenre (acc : List (String × String)) (g : RefVal)
    (h : acc.Nodup) : (addGenre acc g).Nodup := by
  unfold addGenre
  cases genrePair g with
  | none => exact h
  | some p => exact nodup_insertSet acc p h

/-- Membership in the extracted genre set is exactly having a well-formed
embedded reference with that id and name somewhere in the source. -/
theorem mem_extractGenresFromFilms (films : List GenreFilmDoc) (x : String × String) :
    x ∈ extractGenresFromFilms films ↔
      ∃ f ∈ films, ∃ g ∈ f.genre, genrePair g = some x := by
  unfold extractGenresFromFilms
  rw [mem_foldl_of_step (fun acc f => f.genre.foldl addGenre acc)
    (fun f x => ∃ g ∈ f.genre, genrePair g = some x)
    (fun acc f x => by
      rw [mem_foldl_of_step addGenre (fun g x => genrePair g = some x) mem_addGenre]) films [] x]
  simp

theorem nodup_extractGenresFromFilms (films : List GenreFilmDoc) :
    (extractGenresFromFilms films).Nodup := by
  unfold extractGenresFromFilms
  exact nodup_foldl_of_step _
    (fun acc f hacc => nodup_foldl_of_step addGenre nodup_addGenre f.genre acc hacc)
    films [] List.nodup_nil

theorem genrePair_eq_some (g : RefVal) (i n : String) :
    genrePair g = some (i, n) ↔
      RefVal.get g keyId = some i ∧ RefVal.get g keyName = some n := by
  unfold genrePair
  cases hid : RefVal.get g keyId with
  | none => simp
  | some i' =>
    cases hname : RefVal.get g keyName with
    | none => simp
    | some n' =>
      constructor
      · intro h
        have h' := Option.some_injective _ h
        exact ⟨by rw [(Prod.mk.injEq _ _ _ _).mp h'.symm |>.1], by rw [(Prod.mk.injEq _ _ _ _).mp h'.symm |>.2]⟩
      · rintro ⟨h1, h2⟩
        rw [Option.some_injective _ h1, Option.some_injective _ h2]

/-- Extraction over one loop of genre references equals inserting exactly
the well-formed pairs, in order: malformed elements are skipped and do not
interrupt the loop. -/
theorem foldl_addGenre_eq_filterMap (l : List RefVal) :
    ∀ acc, l.foldl addGenre acc = (l.filterMap genrePair).foldl insertSet acc := by
  induction l with
  | nil => intro acc; simp
  | cons g gs ih =>
    intro acc
    rw [List.foldl_cons]
    cases h : genrePair g with
    | none =>
      rw [List.filterMap_cons_none h, ih]
      unfold addGenre
      rw [h]
    | some p =>
      rw [List.filterMap_cons_some h, List.foldl_cons, ih]
      unfold addGenre
      rw [h]

end EtlGenres

/-! ## src/src/etl/etl_persons.py — ETLPersonService -/

namespace EtlPersons

/-- A film document as the persons extractor sees it: the document id and
the three embedded role arrays (a missing array reads as []). -/
structure PersonFilmDoc where
  id : String
  actors : List RefVal
  writers : List RefVal
  directors : List RefVal
  deriving DecidableEq, Repr

/-- The guard and projection applied to one array element:
isinstance(x, dict) and "uuid" in x and "full_name" in x,
then (x["uuid"], x["full_name"], role). -/
def personTriple (role : String) (p : RefVal) : Option (String × String × String) :=
  match RefVal.get p keyUuid, RefVal.get p keyFullName with
  | some u, some n => some (u, n, role)
  | _, _ => none

def addPersonRef (role : String) (acc : List (String × String × String)) (p : RefVal) :
    List (String × String × String) :=
  match personTriple role p with
  | some t => insertSet acc t
  | none => acc

/-- The per-document body of extract_persons_from_films: the three loops
over actors, writers and directors, in source order. -/
def extractFromFilm (acc : List (String × String × String)) (f : PersonFilmDoc) :
    List (String × String × String) :=
  f.directors.foldl (addPersonRef roleDirector)
    (f.writers.foldl (addPersonRef roleWriter)
      (f.actors.foldl (addPersonRef roleActor) acc))

/-- ETLPersonService.extract_persons_from_films: fold every well-formed
person reference of every film into one set of (uuid, full_name, role)
triples. -/
def extractPersonsFromFilms (films : List PersonFilmDoc) : List (String × String × String) :=
  films.foldl extractFromFilm []

theorem nodup_addPersonRef (role : String) (acc : List (String × String × String))
    (p : RefVal) (h : acc.Nodup) : (addPersonRef role acc p).Nodup := by
  unfold addPersonRef
  cases personTriple role p with
  | none => exact h
  | some t => exact nodup_insertSet acc t h

theorem nodup_extractPersonsFromFilms (films : List PersonFilmDoc) :
    (extractPersonsFromFilms films).Nodup := by
  unfold extractPersonsFromFilms
  refine nodup_foldl_of_step extractFromFilm (fun acc f hacc => ?_) films [] List.nodup_nil
  unfold extractFromFilm
  exact nodup_foldl_of_step _ (nodup_addPersonRef roleDirector) _ _
    (nodup_foldl_of_step _ (nodup_addPersonRef roleWriter) _ _
      (nodup_foldl_of_step _ (nodup_addPersonRef roleActor) _ _ hacc))

/-- ETLPersonService.recreate_person_index. -/
def recreatePersonIndex (s : Store PersonDoc) : Except ExcTy (Store PersonDoc) × List Ev :=
  if indexExists s then
    (createIndex personsMapping (deleteIndex s), [Ev.adminExists, Ev.adminDelete, Ev.adminCreate])
  else
    (createIndex personsMapping s, [Ev.adminExists, Ev.adminCreate])

/-- ETLPersonService.load_persons_to_index: one bulk action per set
element; the document id is the person id ONLY — the role is not part of
the document id.  The films field is written as the empty list. -/
def loadPersonsToIndex (persons : List (String × String × String)) (s : Store PersonDoc) :
    Store PersonDoc :=
  bulkWriteStore (persons.map fun t => (t.1, PersonDoc.mk t.1 t.2.1 t.2.2 [])) s

/-- ETLPersonService.run_etl: extract, recreate, load. -/
def runEtl (scan : Except ExcTy (List PersonFilmDoc)) (s : Store PersonDoc) :
    Except ExcTy Unit × Store PersonDoc × List Ev :=
  match scan with
  | Except.error e => (Except.error e, s, [])
  | Except.ok films =>
    let persons := extractPersonsFromFilms films
    match recreatePersonIndex s with
    | (Except.error e, evs) => (Except.error e, s, Ev.extractDone :: evs)
    | (Except.ok s1, evs) =>
      (Except.ok (), loadPersonsToIndex persons s1, Ev.extractDone :: evs ++ [Ev.bulkLoad])

end EtlPersons

/-! ## Python subscripting for the unchecked services variants -/

/-- x[k] on a JSON value: raises (KeyError / TypeError) unless x is an
object carrying the field. -/
def getItemS (v : RefVal) (k : String) : Except ExcTy String :=
  match v with
  | RefVal.nondict => Except.error ExcTy.keyError
  | RefVal.dict fields =>
    match fields.lookup k with
    | some x => Except.ok x
    | none => Except.error ExcTy.keyError

/-! ## src/src/services/etl_genres.py — ETLService (no retry decorators,
no malformed-element guard, create-if-absent instead of recreate) -/

namespace ServicesEtlGenres

/-- This variant reads the field "genres" (plural) of each film document. -/
structure SGenreFilmDoc where
  genres : List RefVal
  deriving DecidableEq, Repr

/-- The inner loop: genres.add((genre["id"], genre["name"])) with no guard;
a malformed element raises out of the whole extraction. -/
def addGenres : List (String × String) → List RefVal → Except ExcTy (List (String × String))
  | acc, [] => Except.ok acc
  | acc, g :: gs => do
    let i ← getItemS g keyId
    let n ← getItemS g keyName
    addGenres (insertSet acc (i, n)) gs

/-- ETLService.extract_genres_from_films (services variant). -/
def extractGenresFromFilms : List SGenreFilmDoc → List (String × String) →
    Except ExcTy (List (String × String))
  | [], acc => Except.ok acc
  | f :: fs, acc => do
    let acc' ← addGenres acc f.genres
    extractGenresFromFilms fs acc'

/-- ETLService.create_genres_index: creates the index only when it does not
exist; an existing index is left untouched, documents included. -/
def createGenresIndex (s : Store GenreDoc) : Except ExcTy (Store GenreDoc) × List Ev :=
  if indexExists s then (Except.ok s, [Ev.adminExists])
  else (createIndex genresMapping s, [Ev.adminExists, Ev.adminCreate])

/-- ETLService.load_genres_to_index (services variant; same bulk shape as
the etl variant). -/
def loadGenresToIndex (genres : List (String × String)) (s : Store GenreDoc) :
    Store GenreDoc :=
  bulkWriteStore (genres.map fun g => (g.1, GenreDoc.mk g.1 g.2)) s

/-- ETLService.run_etl (services variant): extract, create-if-absent, load. -/
def runEtl (scan : Except ExcTy (List SGenreFilmDoc)) (s : Store GenreDoc) :
    Except ExcTy Unit × Store GenreDoc × List Ev :=
  match scan with
  | Except.error e => (Except.error e, s, [])
  | Except.ok films =>
    match extractGenresFromFilms films [] with
    | Except.error e => (Except.error e, s, [])
    | Except.ok genres =>
      match createGenresIndex s with
      | (Except.error e, evs) => (Except.error e, s, Ev.extractDone :: evs)
      | (Except.ok s1, evs) =>
        (Except.ok (), loadGenresToIndex genres s1, Ev.extractDone :: evs ++ [Ev.bulkLoad])

end ServicesEtlGenres

/-! ## src/src/services/etl_persons.py — ETLPersonService (creates the
index BEFORE extracting; extraction yields a list, not a set) -/

namespace ServicesEtlPersons

/-- This variant reads one array "persons" per film document. -/
structure SPersonFilmDoc where
  id : String
  persons : List RefVal
  deriving DecidableEq, Repr

/-- One yielded record: person["id"], person["name"], person["role"],
films = [film_id]; unchecked subscripting raises on a malformed element. -/
def personRec (filmId : String) (p : RefVal) : Except ExcTy PersonDoc := do
  let i ← getItemS p keyId
  let n ← getItemS p keyName
  let r ← getItemS p keyRole
  Except.ok (PersonDoc.mk i n r [filmId])

def filmPersons (filmId : String) : List RefVal → Except ExcTy (List PersonDoc)
  | [] => Except.ok []
  | p :: ps => do
    let d ← personRec filmId p
    let rest ← filmPersons filmId ps
    Except.ok (d :: rest)

/-- ETLPersonService.extract_persons, materialized by the run loop into a
plain list (persons.append for each yielded record — no deduplication). -/
def extractPersons : List SPersonFilmDoc → Except ExcTy (List PersonDoc)
  | [] => Except.ok []
  | f :: fs => do
    let ds ← filmPersons f.id f.persons
    let rest ← extractPersons fs
    Except.ok (ds ++ rest)

/-- ETLPersonService.create_person_index: creates the index with the
services mapping only when it does not exist; never deletes. -/
def createPersonIndex (s : Store PersonDoc) : Except ExcTy (Store PersonDoc) × List Ev :=
  if indexExists s then (Except.ok s, [Ev.adminExists])
  else (createIndex personsMappingSvc s, [Ev.adminExists, Ev.adminCreate])

/-- ETLPersonService.load_persons: the document id is the person id. -/
def loadPersons (persons : List PersonDoc) (s : Store PersonDoc) : Store PersonDoc :=
  bulkWriteStore (persons.map fun p => (p.id, p)) s

/-- ETLPersonService.run_etl (services variant): NOTE the source calls
create_person_index before consuming the extraction generator. -/
def runEtl (scan : Except ExcTy (List SPersonFilmDoc)) (s : Store PersonDoc) :
    Except ExcTy Unit × Store PersonDoc × List Ev :=
  match createPersonIndex s with
  | (Except.error e, evs) => (Except.error e, s, evs)
  | (Except.ok s1, evs) =>
    match scan with
    | Except.error e => (Except.error e, s1, evs)
    | Except.ok films =>
      match extractPersons films with
      | Except.error e => (Except.error e, s1, evs)
      | Except.ok persons =>
        (Except.ok (), loadPersons persons s1, evs ++ [Ev.extractDone, Ev.bulkLoad])

end ServicesEtlPersons

/-! ## The two invocation endpoints -/

structure EndpointResponse where
  status : Nat
  message : String
  deriving DecidableEq, Repr

def msgConnectionError : String := "ConnectionError"
def msgRequestError : String := "RequestError"
def msgNotFoundError : String := "NotFoundError"
def msgKeyError : String := "KeyError"

/-- str(e) for the modelled exception classes. -/
def excMessage (e : ExcTy) : String :=
  match e with
  | ExcTy.connectionError => msgConnectionError
  | ExcTy.requestError => msgRequestError
  | ExcTy.notFoundError => msgNotFoundError
  | ExcTy.keyError => msgKeyError

def msgGenresEtlDone : String := "ETL process completed successfully."
def msgGenresEtlFail : String := "Error while running ETL process: "
def msgPersonsEtlDone : String := "Person ETL process completed successfully."
def msgPersonsEtlFail : String := "Error while running person ETL process: "

/-- POST /genres (src/src/api/v1/etl_genres.py): runs the services-module
ETLService; 200 with a confirmation body on success, HTTPException 500
carrying str(e) on any failure. -/
def runEtlGenresEndpoint (scan : Except ExcTy (List ServicesEtlGenres.SGenreFilmDoc))
    (s : Store GenreDoc) : EndpointResponse × Store GenreDoc :=
  match ServicesEtlGenres.runEtl scan s with
  | (Except.ok _, s', _) => (EndpointResponse.mk 200 msgGenresEtlDone, s')
  | (Except.error e, s', _) =>
    (EndpointResponse.mk 500 (msgGenresEtlFail ++ excMessage e), s')

/-- POST /persons (src/src/etl/etl_persons_endpoint.py): runs the
etl-module ETLPersonService; same 200 / 500 shape. -/
def runPersonEtlEndpoint (scan : Except ExcTy (List EtlPersons.PersonFilmDoc))
    (s : Store PersonDoc) : EndpointResponse × Store PersonDoc :=
  match EtlPersons.runEtl scan s with
  | (Except.ok _, s', _) => (EndpointResponse.mk 200 msgPersonsEtlDone, s')
  | (Except.error e, s', _) =>
    (EndpointResponse.mk 500 (msgPersonsEtlFail ++ excMessage e), s')

/-! ## Run-level helper lemmas -/

def freshGenresStore : Store GenreDoc :=
  Store.mk (some (ESIndex.mk genresMapping []))

def freshPersonsStore : Store PersonDoc :=
  Store.mk (some (ESIndex.mk personsMapping []))

theorem EtlGenres.recreateGenresIndex_fst (s : Store GenreDoc) :
    (EtlGenres.recreateGenresIndex s).1 = Except.ok freshGenresStore := by
  rcases s with ⟨o⟩
  cases o <;> rfl

theorem EtlPersons.recreatePersonIndex_fst (s : Store PersonDoc) :
    (EtlPersons.recreatePersonIndex s).1 = Except.ok freshPersonsStore := by
  rcases s with ⟨o⟩
  cases o <;> rfl

theorem EtlGenres.runEtlGenres_ok_eq (films : List EtlGenres.GenreFilmDoc) (s : Store GenreDoc) :
    EtlGenres.runEtl (Except.ok films) s =
      (Except.ok (),
       EtlGenres.loadGenresToIndex (EtlGenres.extractGenresFromFilms films) freshGenresStore,
       Ev.extractDone :: (EtlGenres.recreateGenresIndex s).2 ++ [Ev.bulkLoad]) := by
  rcases s with ⟨o⟩
  cases o <;> rfl

theorem EtlPersons.runEtlPersons_ok_eq (films : List EtlPersons.PersonFilmDoc) (s : Store PersonDoc) :
    EtlPersons.runEtl (Except.ok films) s =
      (Except.ok (),
       EtlPersons.loadPersonsToIndex (EtlPersons.extractPersonsFromFilms films) freshPersonsStore,
       Ev.extractDone :: (EtlPersons.recreatePersonIndex s).2 ++ [Ev.bulkLoad]) := by
  rcases s with ⟨o⟩
  cases o <;> rfl

theorem targetIds_bulkWriteStore_empty {δ : Type} (acts : List (String × δ))
    (m : List (String × String)) :
    targetIds (bulkWriteStore acts (Store.mk (some (ESIndex.mk m [])))) =
      (acts.map Prod.fst).foldl insertSet [] := by
  simp only [bulkWriteStore, targetIds]
  rw [map_fst_bulkApply]
  rfl

theorem targetIds_loadGenres_fresh (genres : List (String × String)) :
    targetIds (EtlGenres.loadGenresToIndex genres freshGenresStore) =
      (genres.map Prod.fst).foldl insertSet [] := by
  unfold EtlGenres.loadGenresToIndex freshGenresStore
  rw [targetIds_bulkWriteStore_empty, List.map_map]
  rfl

theorem targetIds_loadPersons_fresh (persons : List (String × String × String)) :
    targetIds (EtlPersons.loadPersonsToIndex persons freshPersonsStore) =
      (persons.map Prod.fst).foldl insertSet [] := by
  unfold EtlPersons.loadPersonsToIndex freshPersonsStore
  rw [targetIds_bulkWriteStore_empty, List.map_map]
  rfl

/-- Inserting the elements of a list that is fresh relative to the
accumulated set appends them all, in order. -/
theorem foldl_insertSet_of_nodup {α : Type} [DecidableEq α] (l : List α) :
    ∀ acc : List α, (acc ++ l).Nodup → l.foldl insertSet acc = acc ++ l := by
  induction l with
  | nil => intro acc h; simp
  | cons a as ih =>
    intro acc h
    have hmem : a ∉ acc := by
      intro ha
      have := List.disjoint_of_nodup_append h
      exact this ha (List.mem_cons_self a as)
    rw [List.foldl_cons]
    have hins : insertSet acc a = acc ++ [a] := by
      unfold insertSet
      rw [if_neg hmem]
    rw [hins]
    have hperm : acc ++ a :: as = (acc ++ [a]) ++ as := by simp
    rw [ih (acc ++ [a]) (by rw [← hperm]; exact h)]
    simp

/-- The extracted genre ids are exactly the ids of well-formed embedded
genre references. -/
theorem mem_ids_extractGenres (films : List EtlGenres.GenreFilmDoc) (i : String) :
    i ∈ (EtlGenres.extractGenresFromFilms films).map Prod.fst ↔
      ∃ f ∈ films, ∃ g ∈ f.genre,
        RefVal.get g keyId = some i ∧ (RefVal.get g keyName).isSome = true := by
  rw [List.mem_map]
  constructor
  · rintro ⟨⟨i', n⟩, hmem, hfst⟩
    obtain ⟨f, hf, g, hg, hp⟩ := (EtlGenres.mem_extractGenresFromFilms films (i', n)).mp hmem
    obtain ⟨hid, hname⟩ := (EtlGenres.genrePair_eq_some g i' n).mp hp
    exact ⟨f, hf, g, hg, by rw [← hfst]; exact hid, by rw [hname]; rfl⟩
  · rintro ⟨f, hf, g, hg, hid, hname⟩
    obtain ⟨n, hn⟩ := Option.isSome_iff_exists.mp hname
    refine ⟨(i, n), ?_, rfl⟩
    exact (EtlGenres.mem_extractGenresFromFilms films (i, n)).mpr
      ⟨f, hf, g, hg, (EtlGenres.genrePair_eq_some g i n).mpr ⟨hid, hn⟩⟩

/-! ## Claim theorems -/

/-- C2, counterexample: an operation that keeps raising RequestError — the
exception class of a malformed request body, an index-creation conflict or
an invalid mapping — is attempted 5 times by the configured wrapper, not
propagated on the first attempt: retry_if_exception_type((ConnectionError,
RequestError)) classifies RequestError as retryable. -/
theorem request_error_is_retried_five_times :
    (tenacityRun (fun _ => (Except.error ExcTy.requestError : Except ExcTy Unit))).2 = 5
    ∧ (tenacityRun (fun _ => (Except.error ExcTy.requestError : Except ExcTy Unit))).2 ≠ 1
    ∧ (tenacityRun (fun _ => (Except.error ExcTy.requestError : Except ExcTy Unit))).1
        = Except.error ExcTy.requestError :=
  ⟨by decide, by decide, rfl⟩

/-- C2, amended: only errors outside the configured retry class
\x7bConnectionError, RequestError\x7d propagate to the caller on the first
attempt without any retry; RequestError itself (schema conflict, malformed
body, invalid mapping) is retried like a transient error and re-raised only
after the 5th attempt. -/
theorem nonretryable_error_propagates_first_attempt {α : Type}
    (op : Nat → Except ExcTy α) (e : ExcTy)
    (h1 : op 1 = Except.error e) (h2 : isRetryable e = false) :
    tenacityRun op = (Except.error e, 1) := by
  unfold tenacityRun
  rw [tenacityGo_succ_stop h1 (by simp [h2])]

theorem nonretryable_error_propagates_first_attempt_witness :
    tenacityRun (fun _ => (Except.error ExcTy.notFoundError : Except ExcTy Unit))
      = (Except.error ExcTy.notFoundError, 1) :=
  nonretryable_error_propagates_first_attempt
    (fun _ => (Except.error ExcTy.notFoundError : Except ExcTy Unit))
    ExcTy.notFoundError rfl rfl

/-- C8: every wrapped operation is attempted between 1 and 5 times; the
returned outcome is exactly the outcome of the final attempt (so an
exhausted wrapper re-raises the original exception unchanged and never
substitutes a value); every attempt before the final one failed with an
error of the configured retry class; and the configured backoff schedule
waits 2s, 4s, 8s and then caps at 10s. -/
theorem retry_wrapper_policy {α : Type} (op : Nat → Except ExcTy α) :
    1 ≤ (tenacityRun op).2
    ∧ (tenacityRun op).2 ≤ 5
    ∧ (tenacityRun op).1 = op (tenacityRun op).2
    ∧ (∀ k, 1 ≤ k → k < (tenacityRun op).2 →
        ∃ e, op k = Except.error e ∧ isRetryable e = true)
    ∧ etlBackoff 1 = 2 ∧ etlBackoff 2 = 4 ∧ etlBackoff 3 = 8
    ∧ (∀ k, 4 ≤ k → etlBackoff k = 10) := by
  refine ⟨tenacityGo_attempt_ge op 5 1, tenacityGo_attempt_le op 4 1,
    tenacityGo_fst op 5 1, fun k hk1 hk2 => tenacityGo_prior_attempts op 5 1 k hk1 hk2,
    by decide, by decide, by decide, fun k hk => ?_⟩
  have h16 : 16 ≤ 2 ^ k := by
    calc (16 : Nat) = 2 ^ 4 := by decide
    _ ≤ 2 ^ k := Nat.pow_le_pow_right (by decide) hk
  unfold etlBackoff waitExponential
  rw [Nat.one_mul]
  have hmin : (2 ^ k).min 10 = 10 := by
    unfold Nat.min
    exact min_eq_right (by omega)
  rw [hmin]
  decide

theorem retry_wrapper_policy_witness :
    (tenacityRun (fun _ => (Except.error ExcTy.connectionError : Except ExcTy Unit))).2 ≤ 5
    ∧ ∃ e, (fun _ => (Except.error ExcTy.connectionError : Except ExcTy Unit)) 1
          = Except.error e ∧ isRetryable e = true :=
  ⟨(retry_wrapper_policy (fun _ => (Except.error ExcTy.connectionError : Except ExcTy Unit))).2.1,
   (retry_wrapper_policy
      (fun _ => (Except.error ExcTy.connectionError : Except ExcTy Unit))).2.2.2.1 1
      (Nat.le_refl 1) (by decide)⟩

/-- C10: when the wrapped extraction stage raises (for example after retry
exhaustion), both etl-module run_etl orchestrators re-raise that error
with the target store completely untouched and with no admin or bulk call
issued: recreation and loading are reached only after extraction returned. -/
theorem extraction_failure_leaves_target_unchanged (e : ExcTy)
    (sg : Store GenreDoc) (sp : Store PersonDoc) :
    EtlGenres.runEtl (Except.error e) sg = (Except.error e, sg, [])
    ∧ EtlPersons.runEtl (Except.error e) sp = (Except.error e, sp, []) :=
  ⟨rfl, rfl⟩

def stalePersonId : String := "p-old"
def stalePersonName : String := "Old Person"

def stalePersonDoc : PersonDoc :=
  PersonDoc.mk stalePersonId stalePersonName roleActor []

/-- A persons index left over from a prior run, still holding one document. -/
def stalePersonStore : Store PersonDoc :=
  Store.mk (some (ESIndex.mk personsMappingSvc [(stalePersonId, stalePersonDoc)]))

/-- C4, counterexample: the cited services-module index-creation operation
(ETLPersonService.create_person_index), called while the target index is
present and non-empty, performs no delete and returns the index unchanged —
it does not delete the target index and does not yield a fresh empty
collection. -/
theorem create_person_index_does_not_delete :
    (ServicesEtlPersons.createPersonIndex stalePersonStore).1 = Except.ok stalePersonStore
    ∧ targetIds stalePersonStore = [stalePersonId]
    ∧ stalePersonStore ≠ Store.mk (some (ESIndex.mk personsMappingSvc [])) :=
  ⟨rfl, rfl, by decide⟩

/-- C4, amended: the etl-module recreation operations check existence,
delete the index when present and create it fresh — from any starting
state the result is the empty index with the configured schema, so a
second call returns exactly what the first did; the services-module
create_person_index creates the index only when absent and never deletes,
and is likewise idempotent (a second call is a no-op), but it does not
empty a pre-existing index. -/
theorem recreate_index_fresh_and_idempotent (sg : Store GenreDoc) (sp : Store PersonDoc) :
    (EtlGenres.recreateGenresIndex sg).1
        = Except.ok (Store.mk (some (ESIndex.mk genresMapping [])))
    ∧ (EtlPersons.recreatePersonIndex sp).1
        = Except.ok (Store.mk (some (ESIndex.mk personsMapping [])))
    ∧ (∀ s', (EtlGenres.recreateGenresIndex sg).1 = Except.ok s' →
        (EtlGenres.recreateGenresIndex s').1 = (EtlGenres.recreateGenresIndex sg).1)
    ∧ (∀ s', (ServicesEtlPersons.createPersonIndex sp).1 = Except.ok s' →
        (ServicesEtlPersons.createPersonIndex s').1 = Except.ok s') := by
  refine ⟨EtlGenres.recreateGenresIndex_fst sg, EtlPersons.recreatePersonIndex_fst sp,
    fun s' h => ?_, fun s' h => ?_⟩
  · have h2 := EtlGenres.recreateGenresIndex_fst sg
    rw [h] at h2
    have hs : s' = freshGenresStore := Except.ok.inj h2
    rw [hs, EtlGenres.recreateGenresIndex_fst freshGenresStore,
      EtlGenres.recreateGenresIndex_fst sg]
  · rcases sp with ⟨o⟩
    cases o with
    | none =>
      have hs : s' = Store.mk (some (ESIndex.mk personsMappingSvc [])) :=
        Except.ok.inj h.symm
      rw [hs]
      rfl
    | some idx =>
      have hs : s' = Store.mk (some idx) := Except.ok.inj h.symm
      rw [hs]
      rfl

theorem recreate_index_fresh_and_idempotent_witness :
    (EtlGenres.recreateGenresIndex freshGenresStore).1
      = (EtlGenres.recreateGenresIndex (Store.mk none)).1
    ∧ (ServicesEtlPersons.createPersonIndex
        (Store.mk (some (ESIndex.mk personsMappingSvc [])))).1
      = Except.ok (Store.mk (some (ESIndex.mk personsMappingSvc []))) :=
  ⟨(recreate_index_fresh_and_idempotent (Store.mk none) (Store.mk none)).2.2.1
      freshGenresStore rfl,
   (recreate_index_fresh_and_idempotent (Store.mk none) (Store.mk none)).2.2.2
      (Store.mk (some (ESIndex.mk personsMappingSvc []))) rfl⟩

def staleGenreId : String := "g-old"
def staleGenreName : String := "Old Genre"

/-- A genres index left over from a prior run, holding one entity that no
current source document references. -/
def staleGenreStore : Store GenreDoc :=
  Store.mk (some (ESIndex.mk genresMapping
    [(staleGenreId, GenreDoc.mk staleGenreId staleGenreName)]))

/-- C1, counterexample: the services-module run_etl (create-if-absent, no
recreation) succeeds on an empty source yet leaves the stale entity of a
prior run in the target collection — an entity absent from the source
remains after a successful run. -/
theorem services_genres_run_keeps_stale_entity :
    (ServicesEtlGenres.runEtl (Except.ok []) staleGenreStore).1 = Except.ok ()
    ∧ staleGenreId ∈ targetIds (ServicesEtlGenres.runEtl (Except.ok []) staleGenreStore).2.1 :=
  ⟨rfl, by decide⟩

/-- C1, amended: for the etl-module run_etl (which recreates the index),
after a successful run the target ids are exactly the ids of the
well-formed genre references embedded in the source at scan time — every
such id present, no duplicate ids, and nothing else (in particular nothing
left over from the prior contents of the target, whatever they were); the
services-module genre run_etl creates the index only when absent and never
deletes, so entities of a prior run survive (see the counterexample). -/
theorem etl_genres_run_rebuilds_target_exactly (films : List EtlGenres.GenreFilmDoc)
    (s : Store GenreDoc) :
    (EtlGenres.runEtl (Except.ok films) s).1 = Except.ok ()
    ∧ (targetIds (EtlGenres.runEtl (Except.ok films) s).2.1).Nodup
    ∧ (∀ i, i ∈ targetIds (EtlGenres.runEtl (Except.ok films) s).2.1 ↔
        ∃ f ∈ films, ∃ g ∈ f.genre,
          RefVal.get g keyId = some i ∧ (RefVal.get g keyName).isSome = true) := by
  rw [EtlGenres.runEtlGenres_ok_eq]
  dsimp only
  refine ⟨rfl, ?_, fun i => ?_⟩
  · rw [targetIds_loadGenres_fresh]
    exact nodup_foldl_insertSet _ [] List.nodup_nil
  · rw [targetIds_loadGenres_fresh, mem_foldl_insertSet]
    simp only [List.not_mem_nil, false_or]
    exact mem_ids_extractGenres films i

def wGenreId : String := "g-w"
def wGenreName : String := "Western"

def wGenreRef : RefVal :=
  RefVal.dict [(keyId, wGenreId), (keyName, wGenreName)]

def wGenreFilm : EtlGenres.GenreFilmDoc :=
  EtlGenres.GenreFilmDoc.mk [wGenreRef]

theorem etl_genres_run_rebuilds_target_exactly_witness :
    wGenreId ∈ targetIds (EtlGenres.runEtl (Except.ok [wGenreFilm]) (Store.mk none)).2.1 :=
  ((etl_genres_run_rebuilds_target_exactly [wGenreFilm] (Store.mk none)).2.2 wGenreId).mpr
    ⟨wGenreFilm, by decide, wGenreRef, by decide, rfl, rfl⟩

def cexPersonId : String := "p1"
def cexPersonName : String := "Alex Doe"
def cexFilmId1 : String := "f1"
def cexFilmId2 : String := "f2"

def cexPersonRef : RefVal :=
  RefVal.dict [(keyUuid, cexPersonId), (keyFullName, cexPersonName)]

/-- Two distinct source documents, each embedding the same person both as
actor and as director. -/
def cexFilm1 : EtlPersons.PersonFilmDoc :=
  EtlPersons.PersonFilmDoc.mk cexFilmId1 [cexPersonRef] [] [cexPersonRef]

def cexFilm2 : EtlPersons.PersonFilmDoc :=
  EtlPersons.PersonFilmDoc.mk cexFilmId2 [cexPersonRef] [] [cexPersonRef]

/-- Number of documents of the target index carrying the given id and role. -/
def roleCount (s : Store PersonDoc) (i r : String) : Nat :=
  match s.index? with
  | some idx => (idx.docs.filter (fun p => p.2.id == i && p.2.role == r)).length
  | none => 0

/-- C3, counterexample: documents f1 ≠ f2 both embed the reference
(p1, actor) — and both also embed (p1, director).  The load step keys
documents by id alone, so the run ends with a single document for p1
(here: the director one) and ZERO entities for the shared key (p1, actor),
not exactly one. -/
theorem persons_shared_key_yields_zero_entities :
    cexFilm1 ≠ cexFilm2
    ∧ cexPersonRef ∈ cexFilm1.actors ∧ cexPersonRef ∈ cexFilm2.actors
    ∧ (EtlPersons.runEtl (Except.ok [cexFilm1, cexFilm2]) (Store.mk none)).1 = Except.ok ()
    ∧ roleCount (EtlPersons.runEtl (Except.ok [cexFilm1, cexFilm2]) (Store.mk none)).2.1
        cexPersonId roleActor = 0
    ∧ targetIds (EtlPersons.runEtl (Except.ok [cexFilm1, cexFilm2]) (Store.mk none)).2.1
        = [cexPersonId] := by
  refine ⟨by decide, by decide, by decide, rfl, by decide, rfl⟩

/-- C3, amended: after a successful run the target is keyed by id alone.
For genres (role-less) the claim holds as stated: a reference id embedded
in two source documents has exactly one target entity.  For persons the
load step uses the person id as the document id, so the target has
duplicate-free ids — one entity per referenced uuid, not one per
(id, role); a shared (id, role) key can end with zero entities when the
same id also appears under another role (see the counterexample). -/
theorem target_exactly_one_entity_per_id (gfilms : List EtlGenres.GenreFilmDoc)
    (sg : Store GenreDoc) (pfilms : List EtlPersons.PersonFilmDoc) (sp : Store PersonDoc)
    (i n1 n2 : String) (d1 d2 : EtlGenres.GenreFilmDoc) (g1 g2 : RefVal)
    (hd1 : d1 ∈ gfilms) (hd2 : d2 ∈ gfilms)
    (hg1 : g1 ∈ d1.genre) (hg2 : g2 ∈ d2.genre)
    (hp1 : EtlGenres.genrePair g1 = some (i, n1))
    (hp2 : EtlGenres.genrePair g2 = some (i, n2)) :
    (targetIds (EtlGenres.runEtl (Except.ok gfilms) sg).2.1).count i = 1
    ∧ (targetIds (EtlPersons.runEtl (Except.ok pfilms) sp).2.1).Nodup := by
  constructor
  · have hmem : i ∈ targetIds (EtlGenres.runEtl (Except.ok gfilms) sg).2.1 := by
      rw [EtlGenres.runEtlGenres_ok_eq]
      dsimp only
      rw [targetIds_loadGenres_fresh, mem_foldl_insertSet]
      refine Or.inr ((mem_ids_extractGenres gfilms i).mpr ?_)
      obtain ⟨hid, hn⟩ := (EtlGenres.genrePair_eq_some g1 i n1).mp hp1
      exact ⟨d1, hd1, g1, hg1, hid, by rw [hn]; rfl⟩
    have hnd : (targetIds (EtlGenres.runEtl (Except.ok gfilms) sg).2.1).Nodup := by
      rw [EtlGenres.runEtlGenres_ok_eq]
      dsimp only
      rw [targetIds_loadGenres_fresh]
      exact nodup_foldl_insertSet _ [] List.nodup_nil
    have hle := List.nodup_iff_count_le_one.mp hnd i
    have hpos := List.count_pos_iff.mpr hmem
    omega
  · rw [EtlPersons.runEtlPersons_ok_eq]
    dsimp only
    rw [targetIds_loadPersons_fresh]
    exact nodup_foldl_insertSet _ [] List.nodup_nil

theorem target_exactly_one_entity_per_id_witness :
    (targetIds (EtlGenres.runEtl (Except.ok [wGenreFilm]) (Store.mk none)).2.1).count wGenreId
      = 1 :=
  (target_exactly_one_entity_per_id [wGenreFilm] (Store.mk none) [] (Store.mk none)
    wGenreId wGenreName wGenreName wGenreFilm wGenreFilm wGenreRef wGenreRef
    (by decide) (by decide) (by decide) (by decide) rfl rfl).1

def cexGenreIdB : String := "g-bad"
def cexGenreIdG : String := "g-good"
def cexGenreNameG : String := "Comedy"

/-- A malformed reference: it has an id but no display-name field. -/
def cexBadGenreRef : RefVal := RefVal.dict [(keyId, cexGenreIdB)]

def cexGoodGenreRef : RefVal :=
  RefVal.dict [(keyId, cexGenreIdG), (keyName, cexGenreNameG)]

/-- C5, counterexample: in the services-module variant the extraction
subscripts id and name unconditionally, so a document holding one
malformed reference (missing the name field) alongside one valid reference
aborts the whole run with a KeyError and contributes no entity at all —
not N entities with no run-level failure. -/
theorem services_genres_malformed_ref_aborts_run :
    (ServicesEtlGenres.runEtl
        (Except.ok [ServicesEtlGenres.SGenreFilmDoc.mk [cexBadGenreRef, cexGoodGenreRef]])
        (Store.mk none)).1 = Except.error ExcTy.keyError
    ∧ (ServicesEtlGenres.runEtl
        (Except.ok [ServicesEtlGenres.SGenreFilmDoc.mk [cexBadGenreRef, cexGoodGenreRef]])
        (Store.mk none)).2.1 = Store.mk none :=
  ⟨rfl, rfl⟩

/-- C5, amended: in the etl-module variants a malformed array element
(non-object, or missing the id or name field) is skipped without aborting:
extraction of a document equals exactly its list of well-formed references
(when those are pairwise distinct, their number too), and the run
succeeds; in the services-module genre variant a malformed element instead
raises and aborts the run (see the counterexample). -/
theorem etl_genres_extraction_skips_malformed (d : EtlGenres.GenreFilmDoc)
    (s : Store GenreDoc)
    (hnd : (d.genre.filterMap EtlGenres.genrePair).Nodup) :
    EtlGenres.extractGenresFromFilms [d] = d.genre.filterMap EtlGenres.genrePair
    ∧ (EtlGenres.extractGenresFromFilms [d]).length
        = (d.genre.filterMap EtlGenres.genrePair).length
    ∧ (EtlGenres.runEtl (Except.ok [d]) s).1 = Except.ok () := by
  have h1 : EtlGenres.extractGenresFromFilms [d] = d.genre.filterMap EtlGenres.genrePair := by
    show d.genre.foldl EtlGenres.addGenre [] = d.genre.filterMap EtlGenres.genrePair
    rw [EtlGenres.foldl_addGenre_eq_filterMap d.genre []]
    exact foldl_insertSet_of_nodup _ [] (by simpa using hnd)
  refine ⟨h1, by rw [h1], ?_⟩
  rw [EtlGenres.runEtlGenres_ok_eq]

def wGenreId2 : String := "g-x"
def wGenreName2 : String := "Noir"

def wGenreRef2 : RefVal :=
  RefVal.dict [(keyId, wGenreId2), (keyName, wGenreName2)]

/-- One document with a malformed element between two valid references. -/
def wMixedGenreFilm : EtlGenres.GenreFilmDoc :=
  EtlGenres.GenreFilmDoc.mk [wGenreRef, RefVal.nondict, wGenreRef2]

theorem etl_genres_extraction_skips_malformed_witness :
    EtlGenres.extractGenresFromFilms [wMixedGenreFilm]
      = wMixedGenreFilm.genre.filterMap EtlGenres.genrePair
    ∧ (EtlGenres.extractGenresFromFilms [wMixedGenreFilm]).length
        = (wMixedGenreFilm.genre.filterMap EtlGenres.genrePair).length :=
  ⟨(etl_genres_extraction_skips_malformed wMixedGenreFilm (Store.mk none) (by decide)).1,
   (etl_genres_extraction_skips_malformed wMixedGenreFilm (Store.mk none) (by decide)).2.1⟩

/-- C6, counterexample: in the services-module person run_etl the trace of
a successful run opens with the exists-check and the index creation —
two index-admin calls on the target collection — BEFORE extraction has
concluded; extraction strictly preceding index administration fails for
this cited orchestrator. -/
theorem services_persons_admin_call_precedes_extraction :
    (ServicesEtlPersons.runEtl (Except.ok []) (Store.mk none)).2.2
      = [Ev.adminExists, Ev.adminCreate, Ev.extractDone, Ev.bulkLoad]
    ∧ isAdminEv Ev.adminExists = true
    ∧ isAdminEv Ev.adminCreate = true :=
  ⟨rfl, rfl, rfl⟩

/-- C6, amended: in the two etl-module orchestrators the stages of a
successful run are strictly ordered — the trace is exactly the extraction
conclusion, then the index-admin calls of the recreation, then the bulk
load; no admin call on the target collection precedes the end of
extraction.  The services-module person run_etl instead creates the index
before extracting (see the counterexample). -/
theorem etl_runs_order_extract_recreate_load (gfilms : List EtlGenres.GenreFilmDoc)
    (sg : Store GenreDoc) (pfilms : List EtlPersons.PersonFilmDoc) (sp : Store PersonDoc) :
    (∃ advs, (EtlGenres.runEtl (Except.ok gfilms) sg).2.2
        = Ev.extractDone :: advs ++ [Ev.bulkLoad]
      ∧ ∀ ev ∈ advs, isAdminEv ev = true)
    ∧ (∃ advs, (EtlPersons.runEtl (Except.ok pfilms) sp).2.2
        = Ev.extractDone :: advs ++ [Ev.bulkLoad]
      ∧ ∀ ev ∈ advs, isAdminEv ev = true) := by
  constructor
  · rw [EtlGenres.runEtlGenres_ok_eq]
    refine ⟨(EtlGenres.recreateGenresIndex sg).2, rfl, ?_⟩
    rcases sg with ⟨o⟩
    cases o with
    | none => decide
    | some idx =>
      have htr : (EtlGenres.recreateGenresIndex (Store.mk (some idx))).2
          = [Ev.adminExists, Ev.adminDelete, Ev.adminCreate] := rfl
      rw [htr]
      decide
  · rw [EtlPersons.runEtlPersons_ok_eq]
    refine ⟨(EtlPersons.recreatePersonIndex sp).2, rfl, ?_⟩
    rcases sp with ⟨o⟩
    cases o with
    | none => decide
    | some idx =>
      have htr : (EtlPersons.recreatePersonIndex (Store.mk (some idx))).2
          = [Ev.adminExists, Ev.adminDelete, Ev.adminCreate] := rfl
      rw [htr]
      decide

theorem etl_runs_order_extract_recreate_load_witness :
    ∃ advs, (EtlGenres.runEtl (Except.ok ([] : List EtlGenres.GenreFilmDoc))
        (Store.mk none)).2.2 = Ev.extractDone :: advs ++ [Ev.bulkLoad]
      ∧ ∀ ev ∈ advs, isAdminEv ev = true :=
  (etl_runs_order_extract_recreate_load [] (Store.mk none) [] (Store.mk none)).1

def cexGenreIdA : String := "g1"
def cexGenreNameA : String := "Action"
def cexGenreNameB : String := "Action Films"

/-- C7, counterexample: two source documents embed the same genre id with
two different display names; the extracted accumulation then contains TWO
entries whose key (the id) is equal — it is a set of (id, name) tuples,
not a mapping keyed by id with last-write-wins on the name. -/
theorem extraction_keeps_two_entries_with_same_key :
    EtlGenres.extractGenresFromFilms
        [EtlGenres.GenreFilmDoc.mk [RefVal.dict [(keyId, cexGenreIdA), (keyName, cexGenreNameA)]],
         EtlGenres.GenreFilmDoc.mk [RefVal.dict [(keyId, cexGenreIdA), (keyName, cexGenreNameB)]]]
      = [(cexGenreIdA, cexGenreNameA), (cexGenreIdA, cexGenreNameB)]
    ∧ ((EtlGenres.extractGenresFromFilms
        [EtlGenres.GenreFilmDoc.mk [RefVal.dict [(keyId, cexGenreIdA), (keyName, cexGenreNameA)]],
         EtlGenres.GenreFilmDoc.mk [RefVal.dict [(keyId, cexGenreIdA), (keyName, cexGenreNameB)]]]).map
          Prod.fst).count cexGenreIdA = 2 :=
  ⟨rfl, by decide⟩

/-- C7, amended: extraction accumulates a set deduplicated by the FULL
tuple — (id, name) for genres, (uuid, full_name, role) for persons — so
the extracted result never holds the same tuple twice, but it may hold two
entries sharing an (id[, role]) key with different display names (see the
counterexample); the collapse to one entity per id happens only at load
time, where the bulk write keys documents by id. -/
theorem extraction_is_set_of_full_tuples (gfilms : List EtlGenres.GenreFilmDoc)
    (pfilms : List EtlPersons.PersonFilmDoc) :
    (EtlGenres.extractGenresFromFilms gfilms).Nodup
    ∧ (EtlPersons.extractPersonsFromFilms pfilms).Nodup
    ∧ (targetIds (EtlGenres.loadGenresToIndex (EtlGenres.extractGenresFromFilms gfilms)
        freshGenresStore)).Nodup :=
  ⟨EtlGenres.nodup_extractGenresFromFilms gfilms,
   EtlPersons.nodup_extractPersonsFromFilms pfilms,
   by rw [targetIds_loadGenres_fresh]; exact nodup_foldl_insertSet _ [] List.nodup_nil⟩

theorem runEtlGenresEndpoint_ok (scan : Except ExcTy (List ServicesEtlGenres.SGenreFilmDoc))
    (s : Store GenreDoc) (h : (ServicesEtlGenres.runEtl scan s).1 = Except.ok ()) :
    (runEtlGenresEndpoint scan s).1 = EndpointResponse.mk 200 msgGenresEtlDone := by
  unfold runEtlGenresEndpoint
  rcases hG : ServicesEtlGenres.runEtl scan s with ⟨rg, s', evs⟩
  rw [hG] at h
  dsimp only at h
  rw [h]

theorem runEtlGenresEndpoint_err (scan : Except ExcTy (List ServicesEtlGenres.SGenreFilmDoc))
    (s : Store GenreDoc) (e : ExcTy)
    (h : (ServicesEtlGenres.runEtl scan s).1 = Except.error e) :
    (runEtlGenresEndpoint scan s).1
      = EndpointResponse.mk 500 (msgGenresEtlFail ++ excMessage e) := by
  unfold runEtlGenresEndpoint
  rcases hG : ServicesEtlGenres.runEtl scan s with ⟨rg, s', evs⟩
  rw [hG] at h
  dsimp only at h
  rw [h]

theorem runPersonEtlEndpoint_ok (scan : Except ExcTy (List EtlPersons.PersonFilmDoc))
    (s : Store PersonDoc) (h : (EtlPersons.runEtl scan s).1 = Except.ok ()) :
    (runPersonEtlEndpoint scan s).1 = EndpointResponse.mk 200 msgPersonsEtlDone := by
  unfold runPersonEtlEndpoint
  rcases hP : EtlPersons.runEtl scan s with ⟨rp, s', evs⟩
  rw [hP] at h
  dsimp only at h
  rw [h]

theorem runPersonEtlEndpoint_err (scan : Except ExcTy (List EtlPersons.PersonFilmDoc))
    (s : Store PersonDoc) (e : ExcTy)
    (h : (EtlPersons.runEtl scan s).1 = Except.error e) :
    (runPersonEtlEndpoint scan s).1
      = EndpointResponse.mk 500 (msgPersonsEtlFail ++ excMessage e) := by
  unfold runPersonEtlEndpoint
  rcases hP : EtlPersons.runEtl scan s with ⟨rp, s', evs⟩
  rw [hP] at h
  dsimp only at h
  rw [h]

/-- C9: for each of the two invocation endpoints, the response status is
always 200 or 500 — no partial-success status exists; it is 200, with the
fixed confirmation message, exactly when the whole pipeline run succeeded;
and any unrecovered failure of any stage yields 500 with a message
carrying the failure text. -/
theorem etl_endpoints_all_or_nothing
    (scanG : Except ExcTy (List ServicesEtlGenres.SGenreFilmDoc)) (sg : Store GenreDoc)
    (scanP : Except ExcTy (List EtlPersons.PersonFilmDoc)) (sp : Store PersonDoc) :
    ((runEtlGenresEndpoint scanG sg).1.status = 200
      ∨ (runEtlGenresEndpoint scanG sg).1.status = 500)
    ∧ ((runEtlGenresEndpoint scanG sg).1.status = 200 ↔
        (ServicesEtlGenres.runEtl scanG sg).1 = Except.ok ())
    ∧ (∀ e, (ServicesEtlGenres.runEtl scanG sg).1 = Except.error e →
        (runEtlGenresEndpoint scanG sg).1
          = EndpointResponse.mk 500 (msgGenresEtlFail ++ excMessage e))
    ∧ ((runPersonEtlEndpoint scanP sp).1.status = 200
      ∨ (runPersonEtlEndpoint scanP sp).1.status = 500)
    ∧ ((runPersonEtlEndpoint scanP sp).1.status = 200 ↔
        (EtlPersons.runEtl scanP sp).1 = Except.ok ())
    ∧ (∀ e, (EtlPersons.runEtl scanP sp).1 = Except.error e →
        (runPersonEtlEndpoint scanP sp).1
          = EndpointResponse.mk 500 (msgPersonsEtlFail ++ excMessage e)) := by
  have hg : ((runEtlGenresEndpoint scanG sg).1.status = 200
      ∨ (runEtlGenresEndpoint scanG sg).1.status = 500)
      ∧ ((runEtlGenresEndpoint scanG sg).1.status = 200 ↔
        (ServicesEtlGenres.runEtl scanG sg).1 = Except.ok ()) := by
    rcases hro : (ServicesEtlGenres.runEtl scanG sg).1 with e | u
    · rw [runEtlGenresEndpoint_err scanG sg e hro]
      exact ⟨Or.inr rfl, by constructor <;> intro h <;> simp_all⟩
    · cases u
      rw [runEtlGenresEndpoint_ok scanG sg hro]
      exact ⟨Or.inl rfl, by simp⟩
  have hp : ((runPersonEtlEndpoint scanP sp).1.status = 200
      ∨ (runPersonEtlEndpoint scanP sp).1.status = 500)
      ∧ ((runPersonEtlEndpoint scanP sp).1.status = 200 ↔
        (EtlPersons.runEtl scanP sp).1 = Except.ok ()) := by
    rcases hro : (EtlPersons.runEtl scanP sp).1 with e | u
    · rw [runPersonEtlEndpoint_err scanP sp e hro]
      exact ⟨Or.inr rfl, by constructor <;> intro h <;> simp_all⟩
    · cases u
      rw [runPersonEtlEndpoint_ok scanP sp hro]
      exact ⟨Or.inl rfl, by simp⟩
  exact ⟨hg.1, hg.2, fun e he => runEtlGenresEndpoint_err scanG sg e he,
    hp.1, hp.2, fun e he => runPersonEtlEndpoint_err scanP sp e he⟩

theorem etl_endpoints_all_or_nothing_witness :
    (runEtlGenresEndpoint (Except.ok []) (Store.mk none)).1.status = 200
    ∧ (runPersonEtlEndpoint (Except.error ExcTy.connectionError) (Store.mk none)).1
        = EndpointResponse.mk 500 (msgPersonsEtlFail ++ excMessage ExcTy.connectionError) :=
  ⟨(etl_endpoints_all_or_nothing (Except.ok []) (Store.mk none)
      (Except.ok []) (Store.mk none)).2.1.mpr rfl,
   (etl_endpoints_all_or_nothing (Except.ok []) (Store.mk none)
      (Except.error ExcTy.connectionError) (Store.mk none)).2.2.2.2.2
      ExcTy.connectionError rfl⟩

theorem extraction_is_set_of_full_tuples_witness :
    (EtlGenres.extractGenresFromFilms [wGenreFilm]).Nodup :=
  (extraction_is_set_of_full_tuples [wGenreFilm] []).1

theorem extraction_failure_leaves_target_unchanged_witness :
    EtlGenres.runEtl (Except.error ExcTy.connectionError) (Store.mk none)
      = (Except.error ExcTy.connectionError, Store.mk none, []) :=
  (extraction_failure_leaves_target_unchanged ExcTy.connectionError
    (Store.mk none) (Store.mk none)).1
